import Mathlib

/-!
Shallow embedding of `wake-word-detection.js`, the command-detection state
machine of the wake-word-command library.  Transcripts and wake words are
modelled as `List Char`; JavaScript string operations (`trim`, `toLowerCase`,
`indexOf`, `includes`, `substring`) are embedded as executable functions on
character lists.  The mutable closure state of `createWakeWordDetection` is
the `Session` structure; each event handler of the source becomes a pure
function `Session → ... → Session × List Output`, where `Output` records the
callbacks invoked (in call order).  Timers (`commandTimeout`,
`countdownInterval`, `restartTimeout`, the inactivity watchdog) are modelled
by armed-flags in the state plus explicit fire functions.  Timestamps are
`Nat` milliseconds; JavaScript subtraction of `Date.now()` values is embedded
as truncated `Nat` subtraction, which agrees with the source whenever the
clock is monotone.
-/

/-- Character-list form of a string literal, for concrete test inputs. -/
def str (s : String) : List Char := s.data

/-- Embeds JavaScript `String.prototype.toLowerCase` (ASCII-faithful). -/
def lowerList (l : List Char) : List Char := l.map Char.toLower

/-- Embeds JavaScript `String.prototype.trim`: drop whitespace at both ends. -/
def trimList (l : List Char) : List Char :=
  ((l.dropWhile Char.isWhitespace).reverse.dropWhile Char.isWhitespace).reverse

/-- Embeds JavaScript `String.prototype.indexOf` (first occurrence of
`need` in the haystack, `none` when absent). -/
def jsIndexOf (need : List Char) : List Char → Option Nat
  | [] => if need.isPrefixOf ([] : List Char) then some 0 else none
  | c :: t =>
    if need.isPrefixOf (c :: t) then some 0
    else (jsIndexOf need t).map Nat.succ

/-- Embeds JavaScript `String.prototype.includes`. -/
def listContains (hay need : List Char) : Bool := (jsIndexOf need hay).isSome

/-- Index of the last occurrence of `need`, in the sense of JavaScript
`lastIndexOf`.  Used only to state the specification's "last relevant
occurrence" reading of extraction, for comparison with the source. -/
def lastIndexOfList (need : List Char) : List Char → Option Nat
  | [] => if need.isPrefixOf ([] : List Char) then some 0 else none
  | c :: t =>
    match lastIndexOfList need t with
    | some i => some (i + 1)
    | none => if need.isPrefixOf (c :: t) then some 0 else none

/-- Constant `WAKE_WORD_COOLDOWN_MS` of the source. -/
def WAKE_WORD_COOLDOWN_MS : Nat := 2000

/-- Constant `ERROR_COOLDOWN_MS` of the source. -/
def ERROR_COOLDOWN_MS : Nat := 1000

/-- Constant `MIN_COMMAND_LENGTH` of the source. -/
def MIN_COMMAND_LENGTH : Nat := 1

/-- Constant `MAX_RESTART_ATTEMPTS` of the source. -/
def MAX_RESTART_ATTEMPTS : Nat := 5

/-- Constant `RESTART_DELAY_MS` of the source. -/
def RESTART_DELAY_MS : Nat := 1000

/-- Constant `QUICK_COMMAND_BUFFER_MS` of the source. -/
def QUICK_COMMAND_BUFFER_MS : Nat := 1000

/-- The mutable closure state of `createWakeWordDetection`, one field per
`let` binding of the source (log-only fields such as `commandStartTime` are
kept; the four timers become armed-flags; `recognition !== null` becomes
`hasRecognition`). -/
structure Session where
  wakeWord : List Char
  isListening : Bool
  isPaused : Bool
  lastWakeWordTime : Nat
  currentCommand : List Char
  isCommandComplete : Bool
  wakeWordDetected : Bool
  commandTimeoutArmed : Bool
  fullTranscript : List Char
  lastErrorTime : Nat
  isProcessingCommand : Bool
  interimTranscript : List Char
  restartScheduled : Bool
  isStopping : Bool
  pendingRestart : Bool
  inactivityArmed : Bool
  commandBuffer : List Char
  commandStartTime : Nat
  commandMode : Bool
  lastTranscript : List Char
  countdownArmed : Bool
  waitingForNextFinal : Bool
  restartAttempts : Nat
  hasRecognition : Bool
deriving DecidableEq

/-- Callbacks surfaced to the application, in call order. -/
inductive Output where
  | wakeWordDetectedEvt
  | transcription (text : List Char)
  | command (text : List Char)
  | commandTimeoutEvt
  | errorEvt (code : String)
deriving DecidableEq

/-- Initial closure state after `createWakeWordDetection` succeeds: the
stored wake word is `options.wakeWord.toLowerCase()` (the source does not
trim at construction); `recognition` is still `null`. -/
def initSession (w : List Char) : Session where
  wakeWord := lowerList w
  isListening := false
  isPaused := false
  lastWakeWordTime := 0
  currentCommand := []
  isCommandComplete := false
  wakeWordDetected := false
  commandTimeoutArmed := false
  fullTranscript := []
  lastErrorTime := 0
  isProcessingCommand := false
  interimTranscript := []
  restartScheduled := false
  isStopping := false
  pendingRestart := false
  inactivityArmed := false
  commandBuffer := []
  commandStartTime := 0
  commandMode := false
  lastTranscript := []
  countdownArmed := false
  waitingForNextFinal := false
  restartAttempts := 0
  hasRecognition := false

/-- The factory `createWakeWordDetection`: `if (!options.wakeWord) throw` —
JavaScript falsiness of a string option means absent (`none`) or the empty
string. -/
def createWakeWordDetection (wakeWordOpt : Option (List Char)) :
    Except String Session :=
  match wakeWordOpt with
  | none => Except.error "Wake word is required"
  | some [] => Except.error "Wake word is required"
  | some w => Except.ok (initSession w)

/-- `extractCommandText` of the source.  Normalization is
`trim().toLowerCase()` on both the transcript and the stored wake word; the
search is JavaScript `indexOf` (first occurrence); the fallbacks read the
capture-mode flags and buffers of the session, and the quick-command clause
compares `Date.now()` against `lastWakeWordTime`. -/
def extractCommandText (s : Session) (now : Nat) (text : List Char) :
    List Char :=
  let normalizedText := lowerList (trimList text)
  let normalizedWakeWord := lowerList (trimList s.wakeWord)
  match jsIndexOf normalizedWakeWord normalizedText with
  | some wakeWordIndex =>
    trimList (normalizedText.drop (wakeWordIndex + normalizedWakeWord.length))
  | none =>
    if s.wakeWordDetected = true ∧ s.currentCommand ≠ [] then
      s.currentCommand
    else if s.commandBuffer ≠ [] ∧ s.wakeWordDetected = false ∧
        now - s.lastWakeWordTime < QUICK_COMMAND_BUFFER_MS then
      s.commandBuffer
    else if s.commandMode = true ∧ s.isCommandComplete = false then
      normalizedText
    else []

/-- Extraction as the specification's words read for claim C2: the remainder
after the last occurrence of the normalized wake word, trimmed. -/
def specExtractAfterLast (wakeWord text : List Char) : Option (List Char) :=
  let normalizedText := lowerList (trimList text)
  let normalizedWakeWord := lowerList (trimList wakeWord)
  (lastIndexOfList normalizedWakeWord normalizedText).map
    (fun i => trimList (normalizedText.drop (i + normalizedWakeWord.length)))

/-- `stopCommandListening` of the source: clear the command timeout and the
countdown ticker. -/
def stopCommandListening (s : Session) : Session :=
  { s with commandTimeoutArmed := false, countdownArmed := false }

/-- `startCommandListening` of the source: cancel any prior command timeout
and countdown, stamp `commandStartTime`, arm both afresh. -/
def startCommandListening (s : Session) (now : Nat) : Session :=
  { s with commandTimeoutArmed := true, countdownArmed := true,
           commandStartTime := now }

/-- `pauseCommandTimeout` of the source: clear the command timeout and the
countdown ticker without re-arming either. -/
def pauseCommandTimeout (s : Session) : Session :=
  { s with commandTimeoutArmed := false, countdownArmed := false }

/-- `resetToWakeWordListening` of the source: leave capture mode, stop the
command timers, clear the buffers and fire `onCommandTimeout`. -/
def resetToWakeWordListening (s : Session) : Session × List Output :=
  let s1 := stopCommandListening
    { s with isCommandComplete := true, wakeWordDetected := false,
             isProcessingCommand := false, commandMode := false,
             waitingForNextFinal := false }
  ({ s1 with currentCommand := [], fullTranscript := [],
             interimTranscript := [] },
   [Output.commandTimeoutEvt])

/-- `processCommand` of the source: guarded by
`!isCommandComplete && wakeWordDetected`; finalizes the capture, firing
`onCommand` when the text is truthy and long enough, else
`onCommandTimeout`, then clears the buffers. -/
def processCommand (s : Session) (commandText : List Char) :
    Session × List Output :=
  if s.isCommandComplete = false ∧ s.wakeWordDetected = true then
    let s1 := stopCommandListening
      { s with isCommandComplete := true, wakeWordDetected := false,
               isProcessingCommand := false, commandMode := false,
               waitingForNextFinal := false }
    let out :=
      if commandText ≠ [] ∧ MIN_COMMAND_LENGTH ≤ commandText.length then
        [Output.command commandText]
      else [Output.commandTimeoutEvt]
    ({ s1 with currentCommand := [], fullTranscript := [],
               interimTranscript := [] }, out)
  else (s, [])

/-- `stop` of the source (guarded by `if (recognition)`): mark stopping, stop
the engine, cancel the inactivity watchdog.  The debounce that later clears
`isStopping` is `stopDebounceFire`. -/
def stop (s : Session) : Session :=
  if s.hasRecognition = true then
    { s with isStopping := true, isListening := false, isPaused := false,
             inactivityArmed := false }
  else s

/-- The 50ms debounce timer inside `stop` firing: `isStopping = false`. -/
def stopDebounceFire (s : Session) : Session := { s with isStopping := false }

/-- CASE 1 body of `recognition.onresult` (wake word in a final result while
not processing a command), after the cooldown test.  `s` has already had
`restartAttempts` reset and the inactivity watchdog re-armed. -/
def caseOne (s : Session) (now : Nat)
    (transcript normalizedTranscript normalizedWakeWord : List Char) :
    Session × List Output :=
  if WAKE_WORD_COOLDOWN_MS < now - s.lastWakeWordTime then
    let s1 := { s with lastWakeWordTime := now, isCommandComplete := false,
                       wakeWordDetected := true, isProcessingCommand := true,
                       commandMode := true }
    if trimList normalizedTranscript = normalizedWakeWord then
      (startCommandListening { s1 with waitingForNextFinal := true } now, [])
    else
      let commandText := extractCommandText s1 now transcript
      if commandText ≠ [] ∧ MIN_COMMAND_LENGTH ≤ commandText.length then
        let s2 := { s1 with currentCommand := commandText,
                            interimTranscript := commandText }
        let r := processCommand s2 commandText
        (r.1, Output.transcription commandText :: r.2)
      else
        resetToWakeWordListening s1
  else (s, [])

/-- CASE 2 body of `recognition.onresult`: a final result while waiting for
the next final event after a wake-word-only trigger.  The raw transcript,
trimmed but not lower-cased, becomes the command. -/
def caseTwo (s : Session) (transcript : List Char) : Session × List Output :=
  let s1 := { s with fullTranscript := transcript,
                     lastTranscript := transcript }
  let commandText := trimList transcript
  if commandText ≠ [] ∧ MIN_COMMAND_LENGTH ≤ commandText.length then
    let s2 := { s1 with currentCommand := commandText,
                        interimTranscript := commandText }
    let r := processCommand s2 commandText
    (r.1, Output.transcription commandText :: r.2)
  else
    resetToWakeWordListening s1

/-- CASE 3 body of `recognition.onresult`: an interim result while in
command mode; surfaces the raw transcript and, when still waiting for the
next final result, pauses the command timeout. -/
def caseThree (s : Session) (transcript : List Char) :
    Session × List Output :=
  let s1 := { s with interimTranscript := transcript }
  let s2 := if s1.waitingForNextFinal = true then pauseCommandTimeout s1
            else s1
  (s2, [Output.transcription transcript])

/-- The case dispatch of `recognition.onresult`, after the unconditional
wake-word-detected callback. -/
def onResultCases (s : Session) (now : Nat) (transcript : List Char)
    (isFinal : Bool) (normalizedTranscript normalizedWakeWord : List Char)
    (containsWakeWord : Bool) : Session × List Output :=
  if containsWakeWord = true ∧ isFinal = true ∧
      s.isProcessingCommand = false then
    caseOne s now transcript normalizedTranscript normalizedWakeWord
  else if s.waitingForNextFinal = true ∧ isFinal = true then
    caseTwo s transcript
  else if s.wakeWordDetected = true ∧ s.isCommandComplete = false ∧
      isFinal = false then
    caseThree s transcript
  else (s, [])

/-- `recognition.onresult` of the source: reset `restartAttempts`, re-arm the
inactivity watchdog, normalize, and fire `onWakeWordDetected` on every event
whose normalized transcript contains the lower-cased (untrimmed) wake word,
then dispatch to the three cases. -/
def onResult (s : Session) (now : Nat) (transcript : List Char)
    (isFinal : Bool) : Session × List Output :=
  let s0 := { s with restartAttempts := 0, inactivityArmed := true }
  let normalizedTranscript := lowerList (trimList transcript)
  let normalizedWakeWord := lowerList s0.wakeWord
  let containsWakeWord := listContains normalizedTranscript normalizedWakeWord
  let wwOuts : List Output :=
    if containsWakeWord = true then [Output.wakeWordDetectedEvt] else []
  let r := onResultCases s0 now transcript isFinal normalizedTranscript
    normalizedWakeWord containsWakeWord
  (r.1, wwOuts ++ r.2)

/-- The command timeout timer firing (the `setTimeout` body inside
`startCommandListening`): possible only while armed; clears the countdown
and, when still capturing, resets to wake word listening. -/
def commandTimeoutFire (s : Session) : Session × List Output :=
  if s.commandTimeoutArmed = true then
    let s1 := { s with commandTimeoutArmed := false, countdownArmed := false }
    if s1.isCommandComplete = false ∧ s1.wakeWordDetected = true then
      resetToWakeWordListening s1
    else (s1, [])
  else (s, [])

/-- What `restartRecognition` decides: schedule a backoff restart or stop. -/
inductive RestartOutcome where
  | scheduled (delayMs : Nat)
  | stopped
deriving DecidableEq

/-- `restartRecognition` of the source: cancel any pending restart timer;
at the attempt cap, stop the session; otherwise schedule a restart after
`RESTART_DELAY_MS * 2 ^ restartAttempts`. -/
def restartRecognition (s : Session) : Session × RestartOutcome :=
  let s1 := { s with restartScheduled := false }
  if MAX_RESTART_ATTEMPTS ≤ s1.restartAttempts then
    (stop s1, RestartOutcome.stopped)
  else
    ({ s1 with restartScheduled := true },
     RestartOutcome.scheduled (RESTART_DELAY_MS * 2 ^ s1.restartAttempts))

/-- The scheduled restart timer firing (re-initialize and start succeed):
`restartAttempts` is incremented. -/
def restartTimerFire (s : Session) : Session :=
  if s.restartScheduled = true then
    { s with restartScheduled := false,
             restartAttempts := s.restartAttempts + 1 }
  else s

/-- Engine error codes distinguished by `recognition.onerror`. -/
inductive ErrKind where
  | noSpeech
  | audioCapture
  | network
  | aborted
deriving DecidableEq

/-- The `event.error` string of an error code. -/
def ErrKind.code : ErrKind → String
  | ErrKind.noSpeech => "no-speech"
  | ErrKind.audioCapture => "audio-capture"
  | ErrKind.network => "network"
  | ErrKind.aborted => "aborted"

/-- `recognition.onerror` of the source.  `no-speech` errors return before
`config.onError` in both branches: within the error cooldown they are
dropped without updating `lastErrorTime`; otherwise `lastErrorTime` is
stamped and the handler still returns.  Other errors fire the error
callback, and only `audio-capture`/`network` invoke `restartRecognition`. -/
def onError (s : Session) (now : Nat) (err : ErrKind) :
    Session × List Output × Option RestartOutcome :=
  match err with
  | ErrKind.noSpeech =>
    if now - s.lastErrorTime < ERROR_COOLDOWN_MS then (s, [], none)
    else ({ s with lastErrorTime := now }, [], none)
  | ErrKind.audioCapture =>
    let r := restartRecognition s
    (r.1, [Output.errorEvt (ErrKind.code ErrKind.audioCapture)], some r.2)
  | ErrKind.network =>
    let r := restartRecognition s
    (r.1, [Output.errorEvt (ErrKind.code ErrKind.network)], some r.2)
  | ErrKind.aborted =>
    (s, [Output.errorEvt (ErrKind.code ErrKind.aborted)], none)

/-- `setWakeWord` of the source: clear the command buffers and detection
flags, cancel the command timeout (but not the countdown ticker, nor
`commandMode`, nor `waitingForNextFinal`), store the lower-cased trimmed
phrase, set `pendingRestart` and stop. -/
def setWakeWord (s : Session) (wakeWord : List Char) : Session :=
  let s1 := { s with currentCommand := [], isCommandComplete := false,
                     wakeWordDetected := false, isProcessingCommand := false,
                     fullTranscript := [], interimTranscript := [],
                     commandBuffer := [], commandTimeoutArmed := false }
  let s2 := { s1 with wakeWord := trimList (lowerList wakeWord) }
  stop { s2 with pendingRestart := true }

/-! ### Supporting lemmas about the string-search embedding -/

theorem isPrefixOf_eq_true {need hay : List Char} :
    need.isPrefixOf hay = true ↔ ∃ suf, hay = need ++ suf := by
  induction need generalizing hay with
  | nil => simp [List.isPrefixOf]
  | cons a as ih =>
    cases hay with
    | nil => simp [List.isPrefixOf]
    | cons b bs =>
      simp only [List.isPrefixOf, Bool.and_eq_true, beq_iff_eq, ih,
        List.cons_append, List.cons.injEq]
      constructor
      · rintro ⟨rfl, suf, rfl⟩
        exact ⟨suf, rfl, rfl⟩
      · rintro ⟨suf, rfl, rfl⟩
        exact ⟨rfl, suf, rfl⟩

theorem jsIndexOf_some_spec {need : List Char} :
    ∀ {hay : List Char} {i : Nat}, jsIndexOf need hay = some i →
      need.isPrefixOf (List.drop i hay) = true ∧
      ∀ j, need.isPrefixOf (List.drop j hay) = true → i ≤ j := by
  intro hay
  induction hay with
  | nil =>
    intro i h
    unfold jsIndexOf at h
    split at h
    · next hp =>
      cases h
      exact ⟨by simpa using hp, fun j _ => Nat.zero_le j⟩
    · cases h
  | cons c t ih =>
    intro i h
    unfold jsIndexOf at h
    split at h
    · next hp =>
      cases h
      exact ⟨by simpa using hp, fun j _ => Nat.zero_le j⟩
    · next hnp =>
      cases hj : jsIndexOf need t with
      | none => rw [hj] at h; cases h
      | some k =>
        rw [hj] at h
        simp only [Option.map_some'] at h
        cases h
        obtain ⟨h1, h2⟩ := ih hj
        refine ⟨by simpa using h1, ?_⟩
        intro j hjp
        cases j with
        | zero =>
          rw [List.drop_zero] at hjp
          exact absurd hjp hnp
        | succ j =>
          rw [List.drop_succ_cons] at hjp
          exact Nat.succ_le_succ (h2 j hjp)

theorem jsIndexOf_none_spec {need : List Char} :
    ∀ {hay : List Char}, jsIndexOf need hay = none →
      ∀ j, need.isPrefixOf (List.drop j hay) = false := by
  intro hay
  induction hay with
  | nil =>
    intro h j
    unfold jsIndexOf at h
    split at h
    · cases h
    · next hnp => simpa using eq_false_of_ne_true hnp
  | cons c t ih =>
    intro h j
    unfold jsIndexOf at h
    split at h
    · cases h
    · next hnp =>
      cases hj : jsIndexOf need t with
      | some k => rw [hj] at h; cases h
      | none =>
        cases j with
        | zero =>
          rw [List.drop_zero]
          exact eq_false_of_ne_true hnp
        | succ j =>
          rw [List.drop_succ_cons]
          exact ih hj j

theorem jsIndexOf_isSome_of_append {need pre suf hay : List Char}
    (hdecomp : hay = pre ++ need ++ suf) : (jsIndexOf need hay).isSome := by
  cases hj : jsIndexOf need hay with
  | some k => rfl
  | none =>
    have hfalse := jsIndexOf_none_spec hj pre.length
    have htrue : need.isPrefixOf (List.drop pre.length hay) = true := by
      rw [hdecomp, List.append_assoc, List.drop_left]
      exact isPrefixOf_eq_true.mpr ⟨suf, rfl⟩
    rw [htrue] at hfalse
    cases hfalse

theorem extract_of_indexOf_some (s : Session) (now : Nat) (text : List Char)
    {i : Nat}
    (hj : jsIndexOf (lowerList (trimList s.wakeWord))
      (lowerList (trimList text)) = some i) :
    extractCommandText s now text =
      trimList ((lowerList (trimList text)).drop
        (i + (lowerList (trimList s.wakeWord)).length)) := by
  simp only [extractCommandText, hj]

theorem extract_of_indexOf_none (s : Session) (now : Nat) (text : List Char)
    (hj : jsIndexOf (lowerList (trimList s.wakeWord))
      (lowerList (trimList text)) = none) :
    extractCommandText s now text =
      (if s.wakeWordDetected = true ∧ s.currentCommand ≠ [] then
        s.currentCommand
      else if s.commandBuffer ≠ [] ∧ s.wakeWordDetected = false ∧
          now - s.lastWakeWordTime < QUICK_COMMAND_BUFFER_MS then
        s.commandBuffer
      else if s.commandMode = true ∧ s.isCommandComplete = false then
        lowerList (trimList text)
      else []) := by
  simp only [extractCommandText, hj]

/-! ### Counting surfaced callbacks -/

/-- Number of wake-word-detected callback invocations in an output list. -/
def wakeCount : List Output → Nat
  | [] => 0
  | Output.wakeWordDetectedEvt :: l => wakeCount l + 1
  | _ :: l => wakeCount l

/-- Number of capture-finalization signals (`onCommand` or
`onCommandTimeout`) in an output list. -/
def finalizationCount : List Output → Nat
  | [] => 0
  | Output.command _ :: l => finalizationCount l + 1
  | Output.commandTimeoutEvt :: l => finalizationCount l + 1
  | _ :: l => finalizationCount l

theorem wakeCount_append (a b : List Output) :
    wakeCount (a ++ b) = wakeCount a + wakeCount b := by
  induction a with
  | nil => simp [wakeCount]
  | cons x l ih => cases x <;> simp [wakeCount, ih] <;> omega

theorem finalizationCount_append (a b : List Output) :
    finalizationCount (a ++ b) =
      finalizationCount a + finalizationCount b := by
  induction a with
  | nil => simp [finalizationCount]
  | cons x l ih => cases x <;> simp [finalizationCount, ih] <;> omega

theorem wakeCount_processCommand (s : Session) (c : List Char) :
    wakeCount (processCommand s c).2 = 0 := by
  unfold processCommand
  dsimp only
  split
  · split <;> simp [wakeCount]
  · simp [wakeCount]

theorem wakeCount_reset (s : Session) :
    wakeCount (resetToWakeWordListening s).2 = 0 := by
  simp [resetToWakeWordListening, wakeCount]

theorem wakeCount_caseOne (s : Session) (now : Nat)
    (a b c : List Char) : wakeCount (caseOne s now a b c).2 = 0 := by
  unfold caseOne
  dsimp only
  split
  · split
    · simp [wakeCount]
    · split
      · simp [wakeCount, wakeCount_processCommand]
      · exact wakeCount_reset _
  · simp [wakeCount]

theorem wakeCount_caseTwo (s : Session) (t : List Char) :
    wakeCount (caseTwo s t).2 = 0 := by
  unfold caseTwo
  dsimp only
  split
  · simp [wakeCount, wakeCount_processCommand]
  · exact wakeCount_reset _

theorem wakeCount_caseThree (s : Session) (t : List Char) :
    wakeCount (caseThree s t).2 = 0 := by
  simp [caseThree, wakeCount]

theorem wakeCount_onResultCases (s : Session) (now : Nat)
    (t : List Char) (f : Bool) (nt nw : List Char) (cw : Bool) :
    wakeCount (onResultCases s now t f nt nw cw).2 = 0 := by
  unfold onResultCases
  split
  · exact wakeCount_caseOne _ _ _ _ _
  · split
    · exact wakeCount_caseTwo _ _
    · split
      · exact wakeCount_caseThree _ _
      · simp [wakeCount]

theorem finalizationCount_processCommand (s : Session) (c : List Char) :
    finalizationCount (processCommand s c).2 ≤ 1 := by
  unfold processCommand
  dsimp only
  split
  · split <;> simp [finalizationCount]
  · simp [finalizationCount]

theorem finalizationCount_reset (s : Session) :
    finalizationCount (resetToWakeWordListening s).2 = 1 := by
  simp [resetToWakeWordListening, finalizationCount]

theorem finalizationCount_caseOne (s : Session) (now : Nat)
    (a b c : List Char) : finalizationCount (caseOne s now a b c).2 ≤ 1 := by
  unfold caseOne
  dsimp only
  split
  · split
    · simp [finalizationCount]
    · split
      · simpa [finalizationCount] using
          finalizationCount_processCommand _ _
      · exact Nat.le_of_eq (finalizationCount_reset _)
  · simp [finalizationCount]

theorem finalizationCount_caseTwo (s : Session) (t : List Char) :
    finalizationCount (caseTwo s t).2 ≤ 1 := by
  unfold caseTwo
  dsimp only
  split
  · simpa [finalizationCount] using finalizationCount_processCommand _ _
  · exact Nat.le_of_eq (finalizationCount_reset _)

theorem finalizationCount_caseThree (s : Session) (t : List Char) :
    finalizationCount (caseThree s t).2 = 0 := by
  simp [caseThree, finalizationCount]

theorem finalizationCount_onResultCases (s : Session) (now : Nat)
    (t : List Char) (f : Bool) (nt nw : List Char) (cw : Bool) :
    finalizationCount (onResultCases s now t f nt nw cw).2 ≤ 1 := by
  unfold onResultCases
  split
  · exact finalizationCount_caseOne _ _ _ _ _
  · split
    · exact finalizationCount_caseTwo _ _
    · split
      · rw [finalizationCount_caseThree]
        exact Nat.zero_le 1
      · simp [finalizationCount]

/-! ### Claim C2 -/

/-- Session used for the C2 scenario: wake word `"hey"`. -/
def c2Session : Session := initSession (str "hey")

/-- Claim C2 as frozen is false on the code: with wake word `"hey"` and
transcript `"hey hey lights"`, the source's `indexOf`-based extraction
returns the remainder after the FIRST occurrence (`"hey lights"`), not the
remainder after the last occurrence (`"lights"`). -/
theorem C2_counterexample :
    extractCommandText c2Session 0 (str "hey hey lights") = str "hey lights" ∧
    specExtractAfterLast (str "hey") (str "hey hey lights") =
      some (str "lights") ∧
    str "hey lights" ≠ str "lights" := by decide

/-- Claim C2 (amended): for every wake word whose normalized form is
non-empty and occurs in the normalized transcript, `extractCommandText`
returns the trimmed remainder after the wake word's FIRST occurrence — the
decomposition below is the one with the shortest possible prefix. -/
theorem C2_extract_after_first_occurrence (s : Session) (now : Nat)
    (text : List Char)
    (hW : lowerList (trimList s.wakeWord) ≠ [])
    (hocc : ∃ pre suf, lowerList (trimList text) =
      pre ++ lowerList (trimList s.wakeWord) ++ suf) :
    ∃ pre suf,
      lowerList (trimList text) =
        pre ++ lowerList (trimList s.wakeWord) ++ suf ∧
      (∀ pre' suf', lowerList (trimList text) =
          pre' ++ lowerList (trimList s.wakeWord) ++ suf' →
        pre.length ≤ pre'.length) ∧
      extractCommandText s now text = trimList suf := by
  obtain ⟨pre0, suf0, hdecomp⟩ := hocc
  have hsome : (jsIndexOf (lowerList (trimList s.wakeWord))
      (lowerList (trimList text))).isSome :=
    jsIndexOf_isSome_of_append hdecomp
  obtain ⟨i, hi⟩ := Option.isSome_iff_exists.mp hsome
  obtain ⟨hpref, hmin⟩ := jsIndexOf_some_spec hi
  obtain ⟨r, hr⟩ := isPrefixOf_eq_true.mp hpref
  refine ⟨(lowerList (trimList text)).take i, r, ?_, ?_, ?_⟩
  · conv_lhs => rw [← List.take_append_drop i (lowerList (trimList text))]
    rw [hr, List.append_assoc]
  · intro pre' suf' hd
    have hp : (lowerList (trimList s.wakeWord)).isPrefixOf
        ((lowerList (trimList text)).drop pre'.length) = true := by
      rw [hd, List.append_assoc, List.drop_left]
      exact isPrefixOf_eq_true.mpr ⟨suf', rfl⟩
    calc ((lowerList (trimList text)).take i).length ≤ i := by
          simp [List.length_take]
      _ ≤ pre'.length := hmin pre'.length hp
  · rw [extract_of_indexOf_some s now text hi]
    congr 1
    have hdd : (lowerList (trimList text)).drop
        (i + (lowerList (trimList s.wakeWord)).length) =
        ((lowerList (trimList text)).drop i).drop
          (lowerList (trimList s.wakeWord)).length := by
      rw [List.drop_drop, Nat.add_comm]
    rw [hdd, hr, List.drop_left]

/-- Witness for C2's amended theorem at wake word `"hey"`, transcript
`"hey there"`. -/
theorem C2_witness :
    ∃ pre suf,
      lowerList (trimList (str "hey there")) =
        pre ++ lowerList (trimList c2Session.wakeWord) ++ suf ∧
      (∀ pre' suf', lowerList (trimList (str "hey there")) =
          pre' ++ lowerList (trimList c2Session.wakeWord) ++ suf' →
        pre.length ≤ pre'.length) ∧
      extractCommandText c2Session 0 (str "hey there") = trimList suf :=
  C2_extract_after_first_occurrence c2Session 0 (str "hey there")
    (by decide) ⟨[], str " there", by decide⟩

/-! ### Claim C3 -/

/-- Claim C3: on a transcript without the wake word, extraction while
mid-capture returns the existing partial command buffer if non-empty, else
the full normalized transcript; while not mid-capture (with the
`commandBuffer` field empty, which holds in every reachable state, see
`commandBuffer_never_written`) it returns the empty string.  Totality (the
"never throws" part) is inherent: `extractCommandText` is a total
function. -/
theorem C3_extract_fallbacks (s : Session) (now : Nat) (text : List Char)
    (hno : jsIndexOf (lowerList (trimList s.wakeWord))
      (lowerList (trimList text)) = none) :
    (s.wakeWordDetected = true → s.commandMode = true →
        s.isCommandComplete = false →
      extractCommandText s now text =
        (if s.currentCommand = [] then lowerList (trimList text)
         else s.currentCommand)) ∧
    (s.wakeWordDetected = false → s.commandMode = false →
        s.commandBuffer = [] →
      extractCommandText s now text = []) := by
  rw [extract_of_indexOf_none s now text hno]
  constructor
  · intro h1 h2 h3
    by_cases hc : s.currentCommand = [] <;> simp [h1, h2, h3, hc]
  · intro h1 h2 h3
    simp [h1, h2, h3]

/-- Session mid-capture for the C3 witness. -/
def c3cap : Session :=
  { initSession (str "hey test") with
    isListening := true
    hasRecognition := true
    wakeWordDetected := true
    isProcessingCommand := true
    commandMode := true
    waitingForNextFinal := true
    commandTimeoutArmed := true
    lastWakeWordTime := 5000 }

/-- Idle session for the C3 witness. -/
def c3idle : Session :=
  { initSession (str "hey test") with
    isListening := true
    hasRecognition := true }

/-- Witness for C3: mid-capture a wake-word-free transcript extracts to its
normalized self; idle it extracts to the empty string. -/
theorem C3_witness :
    extractCommandText c3cap 0 (str "Turn ON the lights") =
      str "turn on the lights" ∧
    extractCommandText c3idle 0 (str "turn on the lights") = [] := by
  refine ⟨?_, (C3_extract_fallbacks c3idle 0 (str "turn on the lights")
    (by decide)).2 rfl rfl rfl⟩
  rw [(C3_extract_fallbacks c3cap 0 (str "Turn ON the lights")
    (by decide)).1 rfl rfl rfl]
  decide

/-! ### Claim C1 -/

/-- Freshly started session with wake word `"hey test"`. -/
def c1start : Session :=
  { initSession (str "hey test") with
    isListening := true
    hasRecognition := true }

/-- First trigger: final `"hey test"` at t=3000ms. -/
def c1afterTrigger : Session × List Output :=
  onResult c1start 3000 (str "hey test") true

/-- Second wake-word transcript at t=3500ms, mid-capture and well inside the
2000ms cooldown window. -/
def c1second : Session × List Output :=
  onResult c1afterTrigger.1 3500 (str "hey test") true

/-- Claim C1 as frozen is false on the code: after a trigger at t=3000 the
session is mid-capture, yet a second wake-word transcript at t=3500 (inside
the cooldown window) fires the wake-word-detected callback again — the
callback at line 180 of the source runs before the cooldown/mid-capture
guard. -/
theorem C1_counterexample :
    wakeCount c1afterTrigger.2 = 1 ∧
    c1afterTrigger.1.isProcessingCommand = true ∧
    3500 - c1afterTrigger.1.lastWakeWordTime ≤ WAKE_WORD_COOLDOWN_MS ∧
    wakeCount c1second.2 = 1 := by decide

/-- Claim C1 (amended): the wake-word-detected callback fires exactly once
on every transcript event (interim or final) whose normalized transcript
contains the lower-cased wake word — regardless of the cooldown window or
of being mid-capture — and never otherwise. -/
theorem C1_every_containing_event_fires (s : Session) (now : Nat)
    (t : List Char) (f : Bool) :
    wakeCount (onResult s now t f).2 =
      (if listContains (lowerList (trimList t)) (lowerList s.wakeWord) = true
       then 1 else 0) := by
  unfold onResult
  dsimp only
  rw [wakeCount_append, wakeCount_onResultCases]
  split <;> simp [wakeCount]

/-! ### Claim C4 -/

/-- Freshly started session with wake word `"hey test"` for the C4 trace. -/
def c4start : Session :=
  { initSession (str "hey test") with
    isListening := true
    hasRecognition := true }

/-- Wake-word-only final result at t=5000: enters capture, arms the command
timeout, waits for the next final result. -/
def c4afterWake : Session × List Output :=
  onResult c4start 5000 (str "hey test") true

/-- Interim result `"uh"` at t=5100: the source pauses (clears) the command
timeout and never re-arms it. -/
def c4afterInterim : Session × List Output :=
  onResult c4afterWake.1 5100 (str "uh") false

/-- Claim C4 as frozen is false on the code: after a wake-word-only trigger
followed by one interim transcript, the session is still mid-capture but the
command timeout has been cleared and not re-armed, so if no further final
event arrives, neither `onCommand` nor `onCommandTimeout` can ever fire for
this capture cycle — the cycle ends with neither signal. -/
theorem C4_counterexample :
    finalizationCount (c4afterWake.2 ++ c4afterInterim.2) = 0 ∧
    c4afterInterim.1.wakeWordDetected = true ∧
    c4afterInterim.1.isCommandComplete = false ∧
    c4afterInterim.1.commandTimeoutArmed = false ∧
    commandTimeoutFire c4afterInterim.1 = (c4afterInterim.1, []) := by decide

/-- Claim C4 (amended): every transcript event and every command-timeout
fire emits at most one of `onCommand` / `onCommandTimeout`; an armed command
timeout firing while mid-capture emits exactly one `onCommandTimeout` and
returns the session to awaiting the wake word with cleared buffers.  (The
"never neither" half of the claim fails: an interim transcript while
waiting for the next final result clears the timeout without re-arming it,
see `C4_counterexample`.) -/
theorem C4_finalization_discipline :
    (∀ s now t f, finalizationCount (onResult s now t f).2 ≤ 1) ∧
    (∀ s, finalizationCount (commandTimeoutFire s).2 ≤ 1) ∧
    (∀ s, s.commandTimeoutArmed = true → s.wakeWordDetected = true →
        s.isCommandComplete = false →
      (commandTimeoutFire s).2 = [Output.commandTimeoutEvt] ∧
      (commandTimeoutFire s).1.wakeWordDetected = false ∧
      (commandTimeoutFire s).1.isCommandComplete = true ∧
      (commandTimeoutFire s).1.currentCommand = [] ∧
      (commandTimeoutFire s).1.fullTranscript = [] ∧
      (commandTimeoutFire s).1.interimTranscript = [] ∧
      (commandTimeoutFire s).1.commandTimeoutArmed = false) := by
  refine ⟨?_, ?_, ?_⟩
  · intro s now t f
    unfold onResult
    dsimp only
    rw [finalizationCount_append]
    split
    · simpa [finalizationCount] using
        finalizationCount_onResultCases _ _ _ _ _ _ _
    · simpa [finalizationCount] using
        finalizationCount_onResultCases _ _ _ _ _ _ _
  · intro s
    unfold commandTimeoutFire
    dsimp only
    split
    · split
      · rw [finalizationCount_reset]
      · simp [finalizationCount]
    · simp [finalizationCount]
  · intro s h1 h2 h3
    simp [commandTimeoutFire, resetToWakeWordListening, stopCommandListening,
      h1, h2, h3]

/-- Mid-capture session with an armed command timeout for the C4 witness. -/
def c4cap : Session :=
  { initSession (str "hey test") with
    isListening := true
    hasRecognition := true
    wakeWordDetected := true
    isProcessingCommand := true
    commandMode := true
    waitingForNextFinal := true
    commandTimeoutArmed := true
    countdownArmed := true
    lastWakeWordTime := 5000 }

/-- Witness for C4's amended theorem at a concrete capture state. -/
theorem C4_witness :
    finalizationCount (onResult c4cap 5100 (str "turn on") true).2 ≤ 1 ∧
    (commandTimeoutFire c4cap).2 = [Output.commandTimeoutEvt] :=
  ⟨C4_finalization_discipline.1 c4cap 5100 (str "turn on") true,
   (C4_finalization_discipline.2.2 c4cap rfl rfl rfl).1⟩

/-! ### Claim C5 -/

/-- Mid-capture session (wake-word-only trigger already seen) on which
`setWakeWord` is invoked. -/
def c5mid : Session :=
  { initSession (str "hey test") with
    isListening := true
    hasRecognition := true
    wakeWordDetected := true
    isProcessingCommand := true
    commandMode := true
    waitingForNextFinal := true
    commandTimeoutArmed := true
    countdownArmed := true
    lastWakeWordTime := 5000 }

/-- Claim C5 as frozen is false on the code: `setWakeWord` mid-capture does
NOT clear all in-flight command-capture state and timers — `commandMode`,
`waitingForNextFinal` and the countdown ticker survive the call. -/
theorem C5_counterexample :
    (setWakeWord c5mid (str "new phrase")).commandMode = true ∧
    (setWakeWord c5mid (str "new phrase")).waitingForNextFinal = true ∧
    (setWakeWord c5mid (str "new phrase")).countdownArmed = true := by decide

/-- Claim C5 (amended): `setWakeWord` discards the pending command (the
buffers are emptied and a subsequent finalization attempt emits nothing, so
`onCommand` never fires for it), cancels the command timeout, stores the
normalized phrase, schedules a pending restart and stops the engine — but
it leaves `commandMode`, `waitingForNextFinal` and the countdown ticker
untouched. -/
theorem C5_setWakeWord_effects (s : Session) (w : List Char) :
    (setWakeWord s w).currentCommand = [] ∧
    (setWakeWord s w).fullTranscript = [] ∧
    (setWakeWord s w).interimTranscript = [] ∧
    (setWakeWord s w).commandBuffer = [] ∧
    (setWakeWord s w).wakeWordDetected = false ∧
    (setWakeWord s w).isProcessingCommand = false ∧
    (setWakeWord s w).isCommandComplete = false ∧
    (setWakeWord s w).commandTimeoutArmed = false ∧
    (setWakeWord s w).wakeWord = trimList (lowerList w) ∧
    (setWakeWord s w).pendingRestart = true ∧
    (∀ c, (processCommand (setWakeWord s w) c).2 = []) ∧
    (s.hasRecognition = true →
      (setWakeWord s w).isListening = false ∧
      (setWakeWord s w).isStopping = true) ∧
    (setWakeWord s w).commandMode = s.commandMode ∧
    (setWakeWord s w).waitingForNextFinal = s.waitingForNextFinal ∧
    (setWakeWord s w).countdownArmed = s.countdownArmed := by
  unfold setWakeWord stop
  dsimp only
  by_cases h : s.hasRecognition = true <;> simp [h, processCommand]

/-- Witness for C5's amended theorem at the concrete mid-capture state. -/
theorem C5_witness :
    (setWakeWord c5mid (str "new phrase")).currentCommand = [] ∧
    (setWakeWord c5mid (str "new phrase")).wakeWord =
      trimList (lowerList (str "new phrase")) ∧
    (setWakeWord c5mid (str "new phrase")).pendingRestart = true ∧
    (setWakeWord c5mid (str "new phrase")).isListening = false :=
  ⟨(C5_setWakeWord_effects c5mid (str "new phrase")).1,
   (C5_setWakeWord_effects c5mid (str "new phrase")).2.2.2.2.2.2.2.2.1,
   (C5_setWakeWord_effects c5mid (str "new phrase")).2.2.2.2.2.2.2.2.2.1,
   ((C5_setWakeWord_effects c5mid (str "new phrase")).2.2.2.2.2.2.2.2.2.2.2.1
     rfl).1⟩

/-! ### Claim C6 -/

/-- Claim C6: after consecutive recoverable errors with no intervening
successful transcript, `restartRecognition` schedules restarts with delay
`RESTART_DELAY_MS * 2 ^ restartAttempts` (each executed restart increments
the counter, so the delay strictly doubles per attempt); once the attempt
cap is reached it stops the session, leaving no restart scheduled.  The
`audio-capture`/`network` error handlers route through exactly this
function. -/
theorem C6_backoff (s : Session) :
    (s.restartAttempts < MAX_RESTART_ATTEMPTS →
      (restartRecognition s).2 =
        RestartOutcome.scheduled (RESTART_DELAY_MS * 2 ^ s.restartAttempts) ∧
      (restartRecognition s).1.restartScheduled = true ∧
      (restartTimerFire (restartRecognition s).1).restartAttempts =
        s.restartAttempts + 1) ∧
    (RESTART_DELAY_MS * 2 ^ (s.restartAttempts + 1) =
      2 * (RESTART_DELAY_MS * 2 ^ s.restartAttempts)) ∧
    (MAX_RESTART_ATTEMPTS ≤ s.restartAttempts →
      (restartRecognition s).2 = RestartOutcome.stopped ∧
      (restartRecognition s).1.restartScheduled = false ∧
      (s.hasRecognition = true →
        (restartRecognition s).1.isListening = false)) ∧
    (∀ now,
      (onError s now ErrKind.network).2.2 = some (restartRecognition s).2 ∧
      (onError s now ErrKind.audioCapture).2.2 =
        some (restartRecognition s).2) := by
  refine ⟨?_, ?_, ?_, ?_⟩
  · intro h
    have h5 : ¬ MAX_RESTART_ATTEMPTS ≤ s.restartAttempts := Nat.not_le.mpr h
    simp [restartRecognition, restartTimerFire, h5]
  · rw [pow_succ]
    ring
  · intro h
    refine ⟨by simp [restartRecognition, h], ?_, ?_⟩
    · unfold restartRecognition stop
      dsimp only
      by_cases hr : s.hasRecognition = true <;> simp [h, hr]
    · intro hr
      simp [restartRecognition, stop, h, hr]
  · intro now
    exact ⟨rfl, rfl⟩

/-- Witness for C6 at attempt counts 2 (schedules 4000ms) and 5 (stops). -/
theorem C6_witness :
    (restartRecognition
      { initSession (str "hey") with restartAttempts := 2 }).2 =
        RestartOutcome.scheduled 4000 ∧
    (restartRecognition
      { initSession (str "hey") with restartAttempts := 5 }).2 =
        RestartOutcome.stopped :=
  ⟨((C6_backoff { initSession (str "hey") with restartAttempts := 2 }).1
      (by decide)).1,
   ((C6_backoff { initSession (str "hey") with restartAttempts := 5 }).2.2.1
      (by decide)).1⟩

/-! ### Claim C7 -/

/-- Listening session whose last no-speech error is far in the past. -/
def c7s : Session :=
  { initSession (str "hey test") with
    isListening := true
    hasRecognition := true }

/-- Claim C7 as frozen is false on the code: a no-speech error OUTSIDE the
error cooldown window is still not reported through the error callback —
both no-speech branches return before `config.onError`. -/
theorem C7_counterexample :
    ERROR_COOLDOWN_MS ≤ 5000 - c7s.lastErrorTime ∧
    (onError c7s 5000 ErrKind.noSpeech).2.1 = [] ∧
    (onError c7s 5000 ErrKind.noSpeech).2.2 = none := by decide

/-- Claim C7 (amended): no-speech errors never reach the error callback and
never trigger a restart; within the error cooldown window they are dropped
with no state change at all, otherwise only `lastErrorTime` is stamped.  In
neither case does the session stop. -/
theorem C7_no_speech_never_surfaced (s : Session) (now : Nat) :
    (onError s now ErrKind.noSpeech).2.1 = [] ∧
    (onError s now ErrKind.noSpeech).2.2 = none ∧
    (onError s now ErrKind.noSpeech).1.isListening = s.isListening ∧
    (onError s now ErrKind.noSpeech).1.restartScheduled =
      s.restartScheduled ∧
    (now - s.lastErrorTime < ERROR_COOLDOWN_MS →
      (onError s now ErrKind.noSpeech).1 = s) ∧
    (ERROR_COOLDOWN_MS ≤ now - s.lastErrorTime →
      (onError s now ErrKind.noSpeech).1 = { s with lastErrorTime := now }) := by
  unfold onError
  by_cases h : now - s.lastErrorTime < ERROR_COOLDOWN_MS
  · have hns : ¬ ERROR_COOLDOWN_MS ≤ now - s.lastErrorTime := Nat.not_le.mpr h
    simp [h, hns]
  · have hle : ERROR_COOLDOWN_MS ≤ now - s.lastErrorTime := Nat.not_lt.mp h
    simp [h, hle]

/-- Witness for C7's amended theorem at the concrete session. -/
theorem C7_witness :
    (onError c7s 5000 ErrKind.noSpeech).2.1 = [] ∧
    (onError c7s 5000 ErrKind.noSpeech).1 =
      { c7s with lastErrorTime := 5000 } :=
  ⟨(C7_no_speech_never_surfaced c7s 5000).1,
   (C7_no_speech_never_surfaced c7s 5000).2.2.2.2.2 (by decide)⟩

/-! ### Claim C8 -/

/-- Mid-capture session whose previously surfaced interim value is already
`"abc"`. -/
def c8s : Session :=
  { initSession (str "hey test") with
    isListening := true
    hasRecognition := true
    wakeWordDetected := true
    isProcessingCommand := true
    commandMode := true
    interimTranscript := str "abc"
    currentCommand := str "abc"
    commandTimeoutArmed := true
    lastWakeWordTime := 5000 }

/-- Claim C8 as frozen is false on the code: an interim transcript equal to
the previously surfaced interim value still fires the transcription
callback (no differs-from-previous check, no extraction — the raw
transcript is surfaced), and the command timeout is not re-armed. -/
theorem C8_counterexample :
    c8s.interimTranscript = str "abc" ∧
    (onResult c8s 5200 (str "abc") false).2 =
      [Output.transcription (str "abc")] ∧
    (onResult c8s 5200 (str "abc") false).1.commandTimeoutArmed =
      c8s.commandTimeoutArmed := by decide

/-- Claim C8 (amended): while mid-capture, EVERY interim transcript fires
the transcription-progress callback with the raw transcript — no
extraction, no difference check, no minimum-length check — and the command
timeout is cleared (not re-armed) exactly when the session was waiting for
the next final result; a final transcript mid-capture (when not waiting for
the next final and not re-triggering) fires nothing beyond the wake-word
callback. -/
theorem C8_interim_progress (s : Session) (now : Nat) (t : List Char)
    (h1 : s.wakeWordDetected = true) (h2 : s.isCommandComplete = false) :
    (onResult s now t false).2 =
      (if listContains (lowerList (trimList t)) (lowerList s.wakeWord) = true
       then [Output.wakeWordDetectedEvt] else []) ++
        [Output.transcription t] ∧
    (onResult s now t false).1.interimTranscript = t ∧
    (onResult s now t false).1.commandTimeoutArmed =
      (if s.waitingForNextFinal = true then false
       else s.commandTimeoutArmed) ∧
    (s.isProcessingCommand = true → s.waitingForNextFinal = false →
      (onResult s now t true).2 =
        (if listContains (lowerList (trimList t)) (lowerList s.wakeWord) = true
         then [Output.wakeWordDetectedEvt] else [])) := by
  refine ⟨?_, ?_, ?_, ?_⟩
  · unfold onResult onResultCases caseThree pauseCommandTimeout
    dsimp only
    by_cases hw : s.waitingForNextFinal = true <;> simp [h1, h2, hw]
  · unfold onResult onResultCases caseThree pauseCommandTimeout
    dsimp only
    by_cases hw : s.waitingForNextFinal = true <;> simp [h1, h2, hw]
  · unfold onResult onResultCases caseThree pauseCommandTimeout
    dsimp only
    by_cases hw : s.waitingForNextFinal = true <;> simp [h1, h2, hw]
  · intro h3 h4
    unfold onResult onResultCases
    dsimp only
    simp [h1, h2, h3, h4]

/-- Witness for C8's amended theorem at the concrete mid-capture state. -/
theorem C8_witness :
    (onResult c8s 5200 (str "abc") false).2 =
      (if listContains (lowerList (trimList (str "abc")))
          (lowerList c8s.wakeWord) = true
       then [Output.wakeWordDetectedEvt] else []) ++
        [Output.transcription (str "abc")] ∧
    (onResult c8s 5200 (str "abc") false).1.interimTranscript = str "abc" :=
  ⟨(C8_interim_progress c8s 5200 (str "abc") rfl rfl).1,
   (C8_interim_progress c8s 5200 (str "abc") rfl rfl).2.1⟩

/-! ### Claim C9 -/

/-- Claim C9 as frozen is false on the code: an options object whose
`wakeWord` is present but the empty string (a falsy value, not absent) also
makes the factory throw. -/
theorem C9_counterexample :
    createWakeWordDetection (some []) =
      Except.error "Wake word is required" ∧
    some ([] : List Char) ≠ none := by
  exact ⟨rfl, by decide⟩

/-- Claim C9 (amended): the factory throws exactly when `wakeWord` is
absent OR the empty string (JavaScript falsiness), and returns a session
handle for every present non-empty wake word — no default is substituted. -/
theorem C9_create_validation (o : Option (List Char)) :
    ((o = none ∨ o = some []) →
      createWakeWordDetection o = Except.error "Wake word is required") ∧
    (∀ w, o = some w → w ≠ [] →
      createWakeWordDetection o = Except.ok (initSession w)) := by
  constructor
  · rintro (rfl | rfl) <;> rfl
  · rintro w rfl hw
    cases w with
    | nil => exact absurd rfl hw
    | cons c t => rfl

/-- Witness for C9's amended theorem at a present non-empty wake word and
at an absent one. -/
theorem C9_witness :
    createWakeWordDetection (some (str "hey")) =
      Except.ok (initSession (str "hey")) ∧
    createWakeWordDetection none = Except.error "Wake word is required" :=
  ⟨(C9_create_validation (some (str "hey"))).2 (str "hey") rfl (by decide),
   (C9_create_validation none).1 (Or.inl rfl)⟩

/-! ### Claim C10 -/

/-- Claim C10 as frozen is false on the code: at construction the stored
wake word is lower-cased but NOT trimmed (`" Hey"` is stored as `" hey"`),
and `setWakeWord` performs no validation, so a whitespace-only phrase makes
the stored wake word empty. -/
theorem C10_counterexample :
    (initSession (str " Hey")).wakeWord = str " hey" ∧
    trimList (lowerList (str " Hey")) = str "hey" ∧
    str " hey" ≠ str "hey" ∧
    (setWakeWord (initSession (str "hey")) (str "   ")).wakeWord = [] := by
  decide

/-- Claim C10 (amended): at construction the stored wake word is the
lower-cased (untrimmed) supplied phrase and is non-empty whenever the
supplied phrase is; after `setWakeWord` it is the lower-cased trimmed
phrase, which may be empty since `setWakeWord` does not validate. -/
theorem C10_wakeWord_normalization (w w2 : List Char) (s : Session) :
    (w ≠ [] →
      createWakeWordDetection (some w) = Except.ok (initSession w) ∧
      (initSession w).wakeWord = lowerList w ∧
      (initSession w).wakeWord ≠ []) ∧
    (setWakeWord s w2).wakeWord = trimList (lowerList w2) := by
  constructor
  · intro hw
    refine ⟨?_, rfl, ?_⟩
    · cases w with
      | nil => exact absurd rfl hw
      | cons c t => rfl
    · cases w with
      | nil => exact absurd rfl hw
      | cons c t => simp [initSession, lowerList]
  · unfold setWakeWord stop
    dsimp only
    by_cases hr : s.hasRecognition = true <;> simp [hr]

/-- Witness for C10's amended theorem at concrete phrases. -/
theorem C10_witness :
    (initSession (str "Hey Assistant")).wakeWord =
      lowerList (str "Hey Assistant") ∧
    (setWakeWord (initSession (str "hey")) (str " NEW Word ")).wakeWord =
      trimList (lowerList (str " NEW Word ")) :=
  ⟨((C10_wakeWord_normalization (str "Hey Assistant") (str " NEW Word ")
      (initSession (str "hey"))).1 (by decide)).2.1,
   (C10_wakeWord_normalization (str "Hey Assistant") (str " NEW Word ")
      (initSession (str "hey"))).2⟩

/-! ### The quick-command buffer is dead state

No handler in the source ever writes a non-empty value into
`commandBuffer`; it is empty in the initial state and stays empty, so the
quick-command clause of `extractCommandText` never fires in a reachable
state.  This justifies the `commandBuffer = []` hypothesis of
`C3_extract_fallbacks`. -/

theorem commandBuffer_processCommand (s : Session) (c : List Char) :
    (processCommand s c).1.commandBuffer = s.commandBuffer := by
  unfold processCommand
  split <;> rfl

theorem commandBuffer_caseOne (s : Session) (now : Nat) (a b c : List Char) :
    (caseOne s now a b c).1.commandBuffer = s.commandBuffer := by
  unfold caseOne
  dsimp only
  split
  · split
    · rfl
    · split
      · exact commandBuffer_processCommand _ _
      · rfl
  · rfl

theorem commandBuffer_caseTwo (s : Session) (t : List Char) :
    (caseTwo s t).1.commandBuffer = s.commandBuffer := by
  unfold caseTwo
  dsimp only
  split
  · exact commandBuffer_processCommand _ _
  · rfl

theorem commandBuffer_caseThree (s : Session) (t : List Char) :
    (caseThree s t).1.commandBuffer = s.commandBuffer := by
  unfold caseThree
  dsimp only
  split <;> rfl

theorem commandBuffer_onResult (s : Session) (now : Nat) (t : List Char)
    (f : Bool) : (onResult s now t f).1.commandBuffer = s.commandBuffer := by
  unfold onResult onResultCases
  dsimp only
  split
  · exact commandBuffer_caseOne _ _ _ _ _
  · split
    · exact commandBuffer_caseTwo _ _
    · split
      · exact commandBuffer_caseThree _ _
      · rfl

/-- Every event handler of the embedding preserves emptiness of the
quick-command buffer (`setWakeWord` clears it, the rest never touch it),
and the initial state has it empty: `commandBuffer = []` is an invariant of
every reachable session state. -/
theorem commandBuffer_never_written (s : Session) (now : Nat) (t : List Char)
    (f : Bool) (e : ErrKind) (w : List Char) :
    (onResult s now t f).1.commandBuffer = s.commandBuffer ∧
    (commandTimeoutFire s).1.commandBuffer = s.commandBuffer ∧
    (onError s now e).1.commandBuffer = s.commandBuffer ∧
    (restartRecognition s).1.commandBuffer = s.commandBuffer ∧
    (restartTimerFire s).commandBuffer = s.commandBuffer ∧
    (stop s).commandBuffer = s.commandBuffer ∧
    (stopDebounceFire s).commandBuffer = s.commandBuffer ∧
    (setWakeWord s w).commandBuffer = [] ∧
    (initSession w).commandBuffer = [] := by
  refine ⟨commandBuffer_onResult s now t f, ?_, ?_, ?_, ?_, ?_, rfl, ?_, rfl⟩
  · unfold commandTimeoutFire
    split
    · dsimp only
      split <;> rfl
    · rfl
  · unfold onError restartRecognition stop
    cases e <;> dsimp only
    all_goals repeat' split
    all_goals rfl
  · unfold restartRecognition stop
    dsimp only
    repeat' split
    all_goals rfl
  · unfold restartTimerFire
    split <;> rfl
  · unfold stop
    split <;> rfl
  · unfold setWakeWord stop
    dsimp only
    split <;> rfl
